import Mathlib

/-!
Verification of the unique-request-counter service (`main.go`) against its
design specification.  The Go source is shallowly embedded: the Redis store
becomes an explicit association list from keys to absolute expiry deadlines,
time is an explicit `Nat` parameter (in seconds, so `time.Minute = 60`),
external effects (the Redis round trip failing, the outbound notification
POST) are parameters supplying the externally-determined result, and the
Kafka topic and the log file become explicit lists of emitted strings.
-/

/-- One minute, the fixed TTL passed to `SetNX` and the tick period of the
aggregator (`time.Minute` in the Go source, measured here in seconds). -/
def minute : Nat := 60

/-- Embedding of `digitVal`-style classification used by Go's
`strconv.ParseInt`: a character contributes a digit value only when it lies
between `'0'` and `'9'`. -/
def digitVal? (c : Char) : Option Nat :=
  if '0' ≤ c ∧ c ≤ '9' then some (c.toNat - 48) else none

/-- Accumulating base-10 evaluation of a digit string, failing on the first
non-digit character, exactly as `strconv.ParseUint` walks the bytes. -/
def digitsValAux : Nat → List Char → Option Nat
  | a, [] => some a
  | a, c :: cs =>
    match digitVal? c with
    | none => none
    | some d => digitsValAux (a * 10 + d) cs

/-- Embedding of `parseID` (`main.go:171-173`), i.e. `strconv.Atoi`:
an optional single leading sign, then a nonempty run of base-10 digits,
with the 64-bit signed range check performed by `ParseInt` with the host
integer width (`golang:1.18` on amd64, so 64 bits). -/
def parseID (s : String) : Option Int :=
  match s.data with
  | [] => none
  | c :: rest =>
    let p := if c = '-' then (true, rest) else if c = '+' then (false, rest) else (false, c :: rest)
    if p.2 = [] then none
    else
      match digitsValAux 0 p.2 with
      | none => none
      | some n =>
        if p.1 then (if n ≤ 2 ^ 63 then some (-(n : Int)) else none)
        else (if n < 2 ^ 63 then some (n : Int) else none)

/-- The Redis keyspace: each entry is a key together with the absolute time
at which its TTL expires.  An entry `(k, d)` is alive at any instant `t < d`. -/
abbrev Store := List (String × Nat)

/-- A key currently exists in Redis: some entry for it has not yet expired. -/
def keyLive (s : Store) (now : Nat) (k : String) : Bool :=
  s.any fun e => e.1 == k && decide (now < e.2)

/-- Embedding of Redis `SETNX key value EX ttl` (`redisClient.SetNX`): if the
key is absent (or expired) it is inserted with a fresh deadline and the call
reports `true`; otherwise the store is untouched and the call reports
`false`. -/
def setNX (s : Store) (now : Nat) (k : String) (ttl : Nat) : Bool × Store :=
  if keyLive s now k then (false, s) else (true, (k, now + ttl) :: s)

/-- Embedding of Redis `DEL key`: every entry for the key is removed. -/
def del (s : Store) (k : String) : Store :=
  s.filter fun e => e.1 != k

/-- The aggregator's cleanup loop (`main.go:163-165`): `DEL` applied to each
key of a captured list in turn. -/
def delKeys (s : Store) (ks : List String) : Store :=
  ks.foldl del s

/-- Does a key match the pattern `"request_id:*"` used by `redisClient.Keys`
(`main.go:134`). -/
def keyMatches (k : String) : Bool :=
  "request_id:".data.isPrefixOf k.data

/-- Embedding of `redisClient.Keys(ctx, "request_id:*")`: the currently live
keys matching the pattern. -/
def keysMatching (s : Store) (now : Nat) : List String :=
  (s.filter fun e => keyMatches e.1 && decide (now < e.2)).map Prod.fst

/-- The expiry deadlines currently recorded for a key (used to state frame
properties of the delete step). -/
def entriesFor (s : Store) (k : String) : List Nat :=
  (s.filter fun e => e.1 == k).map Prod.snd

/-- The key layout of `trackUniqueRequest`:
`fmt.Sprintf("request_id:%d", id)`. -/
def keyOf (id : Int) : String :=
  "request_id:" ++ toString id

/-- Embedding of `trackUniqueRequest` (`main.go:97-105`) in the case where
the Redis round trip succeeds: `SetNX` on `"request_id:<id>"` with a fixed
one-minute TTL, returning whether this call performed the insert. -/
def trackUniqueRequest (now : Nat) (id : Int) (s : Store) : Bool × Store :=
  setNX s now (keyOf id) minute

/-- The fixed JSON payload marshalled by `triggerEndpoint`
(`json.Marshal` of `map[string]string` with one entry; this marshal cannot
fail in Go). -/
def jsonData : String := "\x7b\"message\":\"Unique request data\"\x7d"

/-- Embedding of `triggerEndpoint` (`main.go:108-128`).  The outbound POST is
external, so its result is a parameter: `Except.error e` when the transport
fails (`http.Post` returned an error), `Except.ok code` when any HTTP
response arrived, carrying its status code.  The Go function only logs the
status code and returns `nil` for every received response. -/
def triggerEndpoint (postResult : Except String Nat) : Except String Unit :=
  match postResult with
  | Except.error e => Except.error e
  | Except.ok _ => Except.ok ()

/-- Embedding of `RequestHandler` (`main.go:58-94`).  External effects are
parameters: `storeFail` is true when the Redis call inside
`trackUniqueRequest` errors, and `postResult` is the outcome of the
notification POST (consulted only when an endpoint is supplied).  The result
is the HTTP response (status code and body) together with the store after
the call. -/
def RequestHandler (storeFail : Bool) (postResult : Except String Nat) (now : Nat)
    (idParam endpoint : String) (s : Store) : (Nat × String) × Store :=
  if idParam = "" then ((400, "failed"), s)
  else
    match parseID idParam with
    | none => ((400, "failed"), s)
    | some id =>
      if storeFail then ((500, "failed"), s)
      else
        let r := trackUniqueRequest now id s
        if r.1 = false then ((409, "failed: Duplicate"), r.2)
        else if endpoint = "" then ((200, "ok"), r.2)
        else
          match triggerEndpoint postResult with
          | Except.error _ => ((500, "failed"), r.2)
          | Except.ok _ => ((200, "ok"), r.2)

/-- Observable state of the aggregator's world: the Redis store, the
messages produced to the Kafka topic, and the lines appended to
`request_count.log`. -/
structure SysState where
  store : Store
  kafka : List String
  logFile : List String

/-- The report text `fmt.Sprintf("Unique request count in last minute: %d", n)`
shared by the Kafka message and the log line (`main.go:147,157`). -/
def countMessage (n : Nat) : String :=
  "Unique request count in last minute: " ++ toString n

/-- Embedding of one iteration of the loop body of `LogUniqueRequests`
(`main.go:131-168`).  `enumFail` is true when `redisClient.Keys` errors, in
which case the body logs and `continue`s, leaving everything untouched.
Otherwise the snapshot of live `request_id:*` keys is taken, its length is
produced to Kafka and appended to the log file, and exactly the snapshotted
keys are deleted. -/
def logCycle (enumFail : Bool) (now : Nat) (st : SysState) : SysState :=
  if enumFail then st
  else
    let ks := keysMatching st.store now
    { store := delKeys st.store ks
      kafka := st.kafka ++ [countMessage ks.length]
      logFile := st.logFile ++ [countMessage ks.length ++ "\n"] }

/-- Embedding of `LogUniqueRequests` run over a finite list of ticks, each
tick carrying whether the key enumeration fails and the time at which the
tick fires. -/
def LogUniqueRequests (ticks : List (Bool × Nat)) (st : SysState) : SysState :=
  ticks.foldl (fun acc p => logCycle p.1 p.2 acc) st

/-- A sequence of accepted-path requests, each a `(time, id)` pair, pushed
through `trackUniqueRequest`; returns the final store and the list of ids
whose call reported "new" (the accepted identifiers, in order). -/
def processAll : List (Nat × Int) → Store → Store × List Int
  | [], s => (s, [])
  | (t, id) :: rest, s =>
    let r := trackUniqueRequest t id s
    let p := processAll rest r.2
    (p.1, if r.1 then id :: p.2 else p.2)

/-- Repeated `trackUniqueRequest` calls for one identifier at the given
times, returning each call's boolean result. -/
def repeatCalls : List Nat → Int → Store → List Bool
  | [], _, _ => []
  | t :: ts, id, s =>
    let r := trackUniqueRequest t id s
    r.1 :: repeatCalls ts id r.2

/-- Repeated `RequestHandler` calls (no endpoint, healthy store) for one raw
identifier at the given times, returning each call's HTTP response.  Since
Redis `SetNX` is atomic, any concurrent execution of N handlers is
equivalent to running them in some serial order; the list of times is that
serialization. -/
def handleAll : List Nat → String → Store → List (Nat × String)
  | [], _, _ => []
  | t :: ts, idStr, s =>
    let r := RequestHandler false (Except.ok 200) t idStr "" s
    r.1 :: handleAll ts idStr r.2

/-- Spec-side digit predicate (`'0'` through `'9'`). -/
abbrev isDigitChar (c : Char) : Prop := '0' ≤ c ∧ c ≤ '9'

/-- Spec-side base-10 value of a digit string. -/
def natValue (ds : List Char) : Nat :=
  ds.foldl (fun x c => x * 10 + (c.toNat - 48)) 0

/-- Modelled from the spec's words ("Accepts only strings representing a
base-10 integer (sign optional per standard integer parsing rules)"): the
string `s` textually denotes the integer `n` — an optional single leading
sign followed by a nonempty run of base-10 digits — with no range
restriction.  Used only to compare the spec's claim against `parseID`. -/
def specIntString (s : String) (n : Int) : Prop :=
  ∃ ds : List Char, ds ≠ [] ∧ (∀ c ∈ ds, isDigitChar c) ∧
    ((s.data = ds ∨ s.data = '+' :: ds) ∧ n = (natValue ds : Int) ∨
     (s.data = '-' :: ds ∧ n = -(natValue ds : Int)))

theorem keyLive_iff {s : Store} {k : String} {t : Nat} :
    keyLive s t k = true ↔ ∃ d, (k, d) ∈ s ∧ t < d := by
  simp only [keyLive, List.any_eq_true, Bool.and_eq_true, beq_iff_eq, decide_eq_true_eq]
  constructor
  · rintro ⟨⟨k', d⟩, hm, rfl, ht⟩
    exact ⟨d, hm, ht⟩
  · rintro ⟨d, hm, ht⟩
    exact ⟨(k, d), hm, rfl, ht⟩

theorem keyLive_of_mem {s : Store} {k : String} {d t : Nat}
    (h : (k, d) ∈ s) (ht : t < d) : keyLive s t k = true :=
  keyLive_iff.mpr ⟨d, h, ht⟩

theorem setNX_of_live {s : Store} {now : Nat} {k : String} {ttl : Nat}
    (h : keyLive s now k = true) : setNX s now k ttl = (false, s) := by
  simp [setNX, h]

theorem setNX_of_dead {s : Store} {now : Nat} {k : String} {ttl : Nat}
    (h : keyLive s now k = false) : setNX s now k ttl = (true, (k, now + ttl) :: s) := by
  simp [setNX, h]

theorem mem_setNX {e : String × Nat} {s : Store} {now : Nat} {k : String} {ttl : Nat}
    (h : e ∈ s) : e ∈ (setNX s now k ttl).2 := by
  by_cases hl : keyLive s now k = true
  · simp [setNX_of_live hl, h]
  · simp [setNX_of_dead (Bool.eq_false_iff.mpr hl), h]

theorem mem_del {e : String × Nat} {s : Store} {k : String} :
    e ∈ del s k ↔ e ∈ s ∧ e.1 ≠ k := by
  simp [del]

theorem mem_delKeys {e : String × Nat} :
    ∀ {ks : List String} {s : Store}, e ∈ delKeys s ks ↔ e ∈ s ∧ e.1 ∉ ks := by
  intro ks
  induction ks with
  | nil => simp [delKeys]
  | cons k ks ih =>
    intro s
    show e ∈ delKeys (del s k) ks ↔ _
    rw [ih, mem_del]
    simp only [List.mem_cons]
    tauto

theorem keyLive_delKeys_of_mem {s : Store} {ks : List String} {k : String} {t : Nat}
    (h : k ∈ ks) : keyLive (delKeys s ks) t k = false := by
  apply Bool.eq_false_iff.mpr
  intro hlive
  obtain ⟨d, hm, _⟩ := keyLive_iff.mp hlive
  exact (mem_delKeys.mp hm).2 h

theorem entriesFor_del_ne {s : Store} {k j : String} (h : k ≠ j) :
    entriesFor (del s j) k = entriesFor s k := by
  unfold entriesFor del
  rw [List.filter_filter]
  congr 1
  apply List.filter_congr
  intro e _
  by_cases he : e.1 = k
  · simp [he, h]
  · simp [he]

theorem entriesFor_delKeys_not_mem {k : String} :
    ∀ {ks : List String} {s : Store}, k ∉ ks →
      entriesFor (delKeys s ks) k = entriesFor s k := by
  intro ks
  induction ks with
  | nil => intro s _; rfl
  | cons j ks ih =>
    intro s h
    show entriesFor (delKeys (del s j) ks) k = _
    rw [ih (fun hm => h (List.mem_cons_of_mem _ hm)),
      entriesFor_del_ne (fun hkj => h (by rw [hkj]; exact List.mem_cons_self _ _))]

theorem keyLive_eq_entriesFor (s : Store) (t : Nat) (k : String) :
    keyLive s t k = (entriesFor s k).any fun d => decide (t < d) := by
  induction s with
  | nil => rfl
  | cons e s ih =>
    unfold keyLive entriesFor at *
    by_cases he : e.1 = k
    · simp [List.filter_cons, he, List.any_cons, ih]
    · simp [List.filter_cons, he, List.any_cons, ih]

/-- Claim C6: if the key-enumeration call to the external store fails during
an aggregation cycle, no message is produced to Kafka, no line is appended
to the log file, no key is deleted, and the aggregator goes on to process
the remaining ticks unchanged. -/
theorem c6_enum_failure_skips_cycle (now : Nat) (st : SysState) (ticks : List (Bool × Nat)) :
    (logCycle true now st).kafka = st.kafka ∧
      (logCycle true now st).logFile = st.logFile ∧
      (logCycle true now st).store = st.store ∧
      LogUniqueRequests ((true, now) :: ticks) st = LogUniqueRequests ticks st :=
  ⟨rfl, rfl, rfl, rfl⟩

/-- Claim C9: a successful aggregation cycle appends exactly one line
`"Unique request count in last minute: <count>\n"` to the log file and
produces the same report (without the newline) to Kafka, where `<count>` is
the length of the cycle's key snapshot. -/
theorem c9_cycle_emits_both_sinks (now : Nat) (st : SysState) :
    (logCycle false now st).logFile
        = st.logFile
          ++ ["Unique request count in last minute: "
              ++ toString (keysMatching st.store now).length ++ "\n"] ∧
      (logCycle false now st).kafka
        = st.kafka
          ++ ["Unique request count in last minute: "
              ++ toString (keysMatching st.store now).length] ∧
      (logCycle false now st).logFile.length = st.logFile.length + 1 ∧
      (logCycle false now st).kafka.length = st.kafka.length + 1 := by
  refine ⟨rfl, rfl, ?_, ?_⟩ <;> simp [logCycle]

/-- Claim C10: the notification dispatcher reports success for any POST that
received an HTTP response, whatever its status code (404 and 500 included),
and returns an error exactly when the transport failed. -/
theorem c10_notify_ignores_status :
    (∀ status : Nat, triggerEndpoint (Except.ok status) = Except.ok ()) ∧
      triggerEndpoint (Except.ok 404) = Except.ok () ∧
      triggerEndpoint (Except.ok 500) = Except.ok () ∧
      ∀ e : String, triggerEndpoint (Except.error e) = Except.error e :=
  ⟨fun _ => rfl, rfl, rfl, fun _ => rfl⟩

theorem repeatCalls_false {id : Int} {d : Nat} :
    ∀ {ts : List Nat} {s : Store}, (keyOf id, d) ∈ s → (∀ t ∈ ts, t < d) →
      repeatCalls ts id s = List.replicate ts.length false := by
  intro ts
  induction ts with
  | nil => intro s _ _; rfl
  | cons t ts ih =>
    intro s hm ht
    have hlive : keyLive s t (keyOf id) = true :=
      keyLive_of_mem hm (ht t (List.mem_cons_self _ _))
    have hr : trackUniqueRequest t id s = (false, s) := setNX_of_live hlive
    simp only [repeatCalls, hr, List.length_cons, List.replicate_succ]
    rw [ih hm (fun u hu => ht u (List.mem_cons_of_mem _ hu))]

/-- Claim C4: on a store where the identifier's key is currently absent, the
first `trackUniqueRequest` call returns true and inserts exactly the key
`"request_id:" ++ id` with deadline one minute (60 seconds) ahead, and every
subsequent call for the same identifier made before that TTL expires (and
with no clearing cycle in between) returns false. -/
theorem c4_first_call_unique (s : Store) (t0 : Nat) (id : Int)
    (h : keyLive s t0 (keyOf id) = false)
    (ts : List Nat) (hts : ∀ t ∈ ts, t0 ≤ t ∧ t < t0 + minute) :
    (trackUniqueRequest t0 id s).1 = true ∧
      (trackUniqueRequest t0 id s).2 = ("request_id:" ++ toString id, t0 + 60) :: s ∧
      repeatCalls ts id (trackUniqueRequest t0 id s).2 = List.replicate ts.length false := by
  have hr : trackUniqueRequest t0 id s = (true, (keyOf id, t0 + minute) :: s) :=
    setNX_of_dead h
  refine ⟨by rw [hr], by rw [hr]; rfl, ?_⟩
  rw [hr]
  exact repeatCalls_false (List.mem_cons_self _ _) (fun t ht => (hts t ht).2)

/-- Claim C4 witness: identifier 5 on an empty store at time 0, re-submitted
at times 10 and 59. -/
theorem c4_witness :
    (trackUniqueRequest 0 5 []).1 = true ∧
      (trackUniqueRequest 0 5 []).2 = ("request_id:" ++ toString (5 : Int), 0 + 60) :: [] ∧
      repeatCalls [10, 59] 5 (trackUniqueRequest 0 5 []).2 = List.replicate 2 false :=
  c4_first_call_unique [] 0 5 (by decide) [10, 59] (by decide)

/-- Claim C5 counterexample: the claim fails on a TTL race the spec itself
flags (spec section 5 and section 9).  The key `request_id:9` is captured in
the cycle's snapshot at time 60 (its record expires at 61), the record then
expires, and a handler re-inserts the same identifier at time 61 — an insert
performed strictly after the snapshot (`SetNX` returns true).  The cycle's
delete step, which deletes by the snapshotted key list, then removes that
fresh insert: the identifier is not "left unchanged" and does not remain
tracked. -/
theorem c5_counterexample :
    keysMatching [("request_id:9", 61)] 60 = ["request_id:9"] ∧
      (setNX [("request_id:9", 61)] 61 (keyOf 9) minute).1 = true ∧
      keyLive ((setNX [("request_id:9", 61)] 61 (keyOf 9) minute).2) 62 (keyOf 9) = true ∧
      keyLive
        (delKeys ((setNX [("request_id:9", 61)] 61 (keyOf 9) minute).2)
          (keysMatching [("request_id:9", 61)] 60)) 62 (keyOf 9) = false := by
  decide

/-- Claim C5 amended: an aggregation cycle deletes exactly the keys captured
in its step-2 snapshot: every snapshotted key is absent afterwards, and any
key NOT in the snapshot — in particular an identifier first inserted after
the snapshot whose key the snapshot did not capture — keeps exactly its
entries and its liveness through the delete step, so it remains tracked for
the next cycle.  (An identifier whose snapshotted record expires and is
re-inserted between snapshot and delete is still deleted; see the
counterexample.)  Here `s₀` is the store at snapshot time `T` and `s₁` the
store at delete time, after any interleaved inserts. -/
theorem c5_delete_frame (s₀ s₁ : Store) (T u : Nat) (k : String)
    (hk : k ∉ keysMatching s₀ T) :
    entriesFor (delKeys s₁ (keysMatching s₀ T)) k = entriesFor s₁ k ∧
      (keyLive s₁ u k = true → keyLive (delKeys s₁ (keysMatching s₀ T)) u k = true) ∧
      ∀ j ∈ keysMatching s₀ T, keyLive (delKeys s₁ (keysMatching s₀ T)) u j = false := by
  refine ⟨entriesFor_delKeys_not_mem hk, ?_, fun j hj => keyLive_delKeys_of_mem hj⟩
  intro hlive
  rw [keyLive_eq_entriesFor, entriesFor_delKeys_not_mem hk, ← keyLive_eq_entriesFor]
  exact hlive

/-- Claim C5 witness: key `request_id:8`, inserted at time 30 (after the
snapshot at time 10 of a store holding only `request_id:1`), survives the
delete step. -/
theorem c5_witness :
    entriesFor
        (delKeys [("request_id:8", 90), ("request_id:1", 60)]
          (keysMatching [("request_id:1", 60)] 10))
        "request_id:8"
      = entriesFor [("request_id:8", 90), ("request_id:1", 60)] "request_id:8" :=
  (c5_delete_frame [("request_id:1", 60)] [("request_id:8", 90), ("request_id:1", 60)]
    10 30 "request_id:8" (by decide)).1

theorem parseID_empty : parseID "" = none := rfl

theorem ne_empty_of_parseID {idParam : String} {id : Int}
    (hp : parseID idParam = some id) : idParam ≠ "" := by
  intro h
  rw [h, parseID_empty] at hp
  exact Option.noConfusion hp

theorem RequestHandler_some {storeFail : Bool} {postResult : Except String Nat} {now : Nat}
    {idParam endpoint : String} {s : Store} {id : Int}
    (hp : parseID idParam = some id) :
    RequestHandler storeFail postResult now idParam endpoint s =
      if storeFail then ((500, "failed"), s)
      else
        let r := trackUniqueRequest now id s
        if r.1 = false then ((409, "failed: Duplicate"), r.2)
        else if endpoint = "" then ((200, "ok"), r.2)
        else
          match triggerEndpoint postResult with
          | Except.error _ => ((500, "failed"), r.2)
          | Except.ok _ => ((200, "ok"), r.2) := by
  unfold RequestHandler
  rw [if_neg (ne_empty_of_parseID hp), hp]

/-- Claim C1 counterexample: identifier `8` is valid (`parseID` succeeds),
is newly accepted (`trackUniqueRequest` on the empty store returns true),
an endpoint is supplied, and the notification POST fails — yet the handler
answers `500 "failed"`, not the success outcome `200 "ok"`: the notification
failure does change the outcome returned to the caller. -/
theorem c1_counterexample :
    parseID "8" = some 8 ∧
      (trackUniqueRequest 0 8 []).1 = true ∧
      (RequestHandler false (Except.error "connection refused") 0 "8"
          "http://callback.example" []).1 = (500, "failed") ∧
      ((500 : Nat), "failed") ≠ ((200 : Nat), "ok") := by
  decide

/-- Claim C1 amended: for a valid, newly accepted identifier with an
endpoint supplied, a failure of the notification POST DOES change the
outcome returned to the caller: the handler returns an internal error
(`500 "failed"`) instead of the success outcome.  Only the store-side
uniqueness decision survives: the accepted mark remains in the store. -/
theorem c1_notify_failure_changes_outcome (now : Nat) (idParam endpoint : String)
    (id : Int) (s : Store) (e : String) (hp : parseID idParam = some id)
    (hnew : keyLive s now (keyOf id) = false) (he : endpoint ≠ "") :
    (RequestHandler false (Except.error e) now idParam endpoint s).1 = (500, "failed") ∧
      (RequestHandler false (Except.error e) now idParam endpoint s).2
        = (keyOf id, now + minute) :: s ∧
      keyLive (RequestHandler false (Except.error e) now idParam endpoint s).2
          now (keyOf id) = true := by
  have hr : trackUniqueRequest now id s = (true, (keyOf id, now + minute) :: s) :=
    setNX_of_dead hnew
  rw [RequestHandler_some hp]
  simp only [if_neg (Bool.false_ne_true), hr, if_neg he]
  refine ⟨rfl, rfl, ?_⟩
  exact keyLive_of_mem (List.mem_cons_self _ _) (by simp [minute])

/-- Claim C1 witness: identifier `5`, empty store, endpoint supplied,
transport failure. -/
theorem c1_witness :
    (RequestHandler false (Except.error "refused") 0 "5" "http://cb" []).1
      = (500, "failed") :=
  (c1_notify_failure_changes_outcome 0 "5" "http://cb" 5 [] "refused"
    (by decide) (by decide) (by decide)).1

/-- Claim C2 counterexample: for identifier `7` validation succeeds, the
dedup store does not error, and `markIfAbsent` returns true — the claim then
requires the Accepted (success) outcome — but because the supplied endpoint's
notification POST fails, the handler returns `500 "failed"` instead. -/
theorem c2_counterexample :
    parseID "7" = some 7 ∧
      (trackUniqueRequest 0 7 []).1 = true ∧
      (RequestHandler false (Except.error "timeout") 0 "7" "http://peer.example" []).1
        = (500, "failed") ∧
      ((500 : Nat), "failed") ≠ ((200 : Nat), "ok") := by
  decide

/-- Claim C2 amended: the handler's outcome is determined as the claim says
for the Invalid, StoreError and Duplicate branches, but the Accepted branch
additionally requires the optional notification to succeed: with
`markIfAbsent` true it returns success iff no endpoint is supplied or the
POST got a response, and returns an internal error when an endpoint is
supplied and the POST fails. -/
theorem c2_handler_outcomes (storeFail : Bool) (postResult : Except String Nat)
    (now : Nat) (idParam endpoint : String) (s : Store) :
    (parseID idParam = none →
      (RequestHandler storeFail postResult now idParam endpoint s).1 = (400, "failed")) ∧
      (∀ id : Int, parseID idParam = some id → storeFail = true →
        (RequestHandler storeFail postResult now idParam endpoint s).1 = (500, "failed")) ∧
      (∀ id : Int, parseID idParam = some id → storeFail = false →
        keyLive s now (keyOf id) = true →
        (RequestHandler storeFail postResult now idParam endpoint s).1
          = (409, "failed: Duplicate")) ∧
      (∀ id : Int, parseID idParam = some id → storeFail = false →
        keyLive s now (keyOf id) = false →
        (endpoint = "" ∨ ∃ c : Nat, postResult = Except.ok c) →
        (RequestHandler storeFail postResult now idParam endpoint s).1 = (200, "ok")) ∧
      (∀ id : Int, parseID idParam = some id → storeFail = false →
        keyLive s now (keyOf id) = false → endpoint ≠ "" →
        (∃ e : String, postResult = Except.error e) →
        (RequestHandler storeFail postResult now idParam endpoint s).1
          = (500, "failed")) := by
  refine ⟨?_, ?_, ?_, ?_, ?_⟩
  · intro hp
    by_cases h0 : idParam = ""
    · simp [RequestHandler, h0]
    · simp [RequestHandler, h0, hp]
  · intro id hp hf
    rw [RequestHandler_some hp, if_pos hf]
  · intro id hp hf hdup
    have hr : trackUniqueRequest now id s = (false, s) := setNX_of_live hdup
    rw [RequestHandler_some hp, if_neg (by rw [hf]; exact Bool.false_ne_true)]
    simp [hr]
  · intro id hp hf hnew hok
    have hr : trackUniqueRequest now id s = (true, (keyOf id, now + minute) :: s) :=
      setNX_of_dead hnew
    rw [RequestHandler_some hp, if_neg (by rw [hf]; exact Bool.false_ne_true)]
    rcases hok with he | ⟨c, hc⟩
    · simp [hr, he]
    · by_cases he : endpoint = ""
      · simp [hr, he]
      · simp [hr, he, hc, triggerEndpoint]
  · intro id hp hf hnew he ⟨e, hc⟩
    have hr : trackUniqueRequest now id s = (true, (keyOf id, now + minute) :: s) :=
      setNX_of_dead hnew
    rw [RequestHandler_some hp, if_neg (by rw [hf]; exact Bool.false_ne_true)]
    simp [hr, he, hc, triggerEndpoint]

/-- Claim C2 witness: the Duplicate branch at a concrete input — identifier
`3` is already live in the store, so the handler answers `409`. -/
theorem c2_witness :
    (RequestHandler false (Except.ok 200) 0 "3" "" [("request_id:3", 60)]).1
      = (409, "failed: Duplicate") :=
  (c2_handler_outcomes false (Except.ok 200) 0 "3" "" [("request_id:3", 60)]).2.2.1
    3 (by decide) rfl (by decide)

theorem handleAll_duplicate {id : Int} {d : Nat} {idStr : String}
    (hp : parseID idStr = some id) :
    ∀ {ts : List Nat} {s : Store}, (keyOf id, d) ∈ s → (∀ t ∈ ts, t < d) →
      handleAll ts idStr s = List.replicate ts.length (409, "failed: Duplicate") := by
  intro ts
  induction ts with
  | nil => intro s _ _; rfl
  | cons t ts ih =>
    intro s hm ht
    have hr : trackUniqueRequest t id s = (false, s) :=
      setNX_of_live (keyLive_of_mem hm (ht t (List.mem_cons_self _ _)))
    have hh : RequestHandler false (Except.ok 200) t idStr "" s
        = ((409, "failed: Duplicate"), s) := by
      rw [RequestHandler_some hp]
      simp [hr]
    simp only [handleAll, hh, List.length_cons, List.replicate_succ]
    rw [ih hm (fun u hu => ht u (List.mem_cons_of_mem _ hu))]

/-- Claim C7: N submissions of the same identifier within one window —
modelled as the N possible serializations that atomic `SetNX` reduces any
concurrent execution to, with arbitrary call times inside the window —
produce exactly one `200 "ok"` (Accepted) outcome, at the head of the
serialization, and N−1 `409` (Duplicate) outcomes: no two calls both
observe "new". -/
theorem c7_exactly_one_accepted (idStr : String) (id : Int) (hp : parseID idStr = some id)
    (t0 : Nat) (rest : List Nat) (hts : ∀ t ∈ rest, t0 ≤ t ∧ t < t0 + minute)
    (s : Store) (h0 : keyLive s t0 (keyOf id) = false) :
    handleAll (t0 :: rest) idStr s
        = (200, "ok") :: List.replicate rest.length (409, "failed: Duplicate") ∧
      (handleAll (t0 :: rest) idStr s).count ((200 : Nat), "ok") = 1 ∧
      (handleAll (t0 :: rest) idStr s).count ((409 : Nat), "failed: Duplicate")
        = rest.length := by
  have hr : trackUniqueRequest t0 id s = (true, (keyOf id, t0 + minute) :: s) :=
    setNX_of_dead h0
  have hh : RequestHandler false (Except.ok 200) t0 idStr "" s
      = ((200, "ok"), (keyOf id, t0 + minute) :: s) := by
    rw [RequestHandler_some hp]
    simp [hr]
  have hmain : handleAll (t0 :: rest) idStr s
      = (200, "ok") :: List.replicate rest.length (409, "failed: Duplicate") := by
    simp only [handleAll, hh]
    rw [handleAll_duplicate hp (List.mem_cons_self _ _) (fun t ht => (hts t ht).2)]
  refine ⟨hmain, ?_, ?_⟩
  · rw [hmain]
    simp [List.count_cons, List.count_replicate]
  · rw [hmain]
    simp [List.count_cons, List.count_replicate]

/-- Claim C7 witness: three submissions of identifier `42` at times 0, 1, 2
on an empty store — one accepted, two duplicates. -/
theorem c7_witness :
    handleAll [0, 1, 2] "42" []
      = [(200, "ok"), (409, "failed: Duplicate"), (409, "failed: Duplicate")] :=
  (c7_exactly_one_accepted "42" 42 (by decide) 0 [1, 2] (by decide) [] (by decide)).1

theorem isPrefixOf_append_self : ∀ (l t : List Char), l.isPrefixOf (l ++ t) = true := by
  intro l t
  induction l with
  | nil => simp [List.isPrefixOf]
  | cons c cs ih =>
    show (c == c && cs.isPrefixOf (cs ++ t)) = true
    simp [ih]

theorem keyMatches_keyOf (id : Int) : keyMatches (keyOf id) = true := by
  unfold keyMatches keyOf
  rw [String.data_append]
  exact isPrefixOf_append_self _ _

theorem mem_processAll {e : String × Nat} :
    ∀ {reqs : List (Nat × Int)} {s : Store}, e ∈ s → e ∈ (processAll reqs s).1 := by
  intro reqs
  induction reqs with
  | nil => intro s h; exact h
  | cons q rest ih =>
    intro s h
    obtain ⟨t, id⟩ := q
    simp only [processAll]
    exact ih (mem_setNX h)

theorem accepted_not_mem {id : Int} {d : Nat} :
    ∀ {reqs : List (Nat × Int)} {s : Store},
      (keyOf id, d) ∈ s → (∀ p ∈ reqs, p.1 < d) → id ∉ (processAll reqs s).2 := by
  intro reqs
  induction reqs with
  | nil => intro s _ _ h; exact absurd h (List.not_mem_nil id)
  | cons q rest ih =>
    intro s hm hlt
    obtain ⟨t, id'⟩ := q
    simp only [processAll]
    intro hmem
    by_cases hb : (trackUniqueRequest t id' s).1 = true
    · rw [if_pos hb] at hmem
      rcases List.mem_cons.mp hmem with heq | hmem'
      · have hlive : keyLive s t (keyOf id') = true := by
          rw [← heq]
          exact keyLive_of_mem hm (hlt (t, id') (List.mem_cons_self _ _))
        have hfalse : trackUniqueRequest t id' s = (false, s) := setNX_of_live hlive
        rw [hfalse] at hb
        simp at hb
      · exact ih (mem_setNX hm) (fun p hp => hlt p (List.mem_cons_of_mem _ hp)) hmem'
    · rw [if_neg hb] at hmem
      exact ih (mem_setNX hm) (fun p hp => hlt p (List.mem_cons_of_mem _ hp)) hmem

theorem processAll_invariant (T : Nat) :
    ∀ (reqs : List (Nat × Int)) (s : Store),
      (∀ e ∈ s, T < e.2 ∧ keyMatches e.1 = true) →
      (∀ p ∈ reqs, p.1 ≤ T ∧ T < p.1 + minute) →
      (∀ e ∈ (processAll reqs s).1, T < e.2 ∧ keyMatches e.1 = true) ∧
        (processAll reqs s).1.length = s.length + (processAll reqs s).2.length ∧
        (processAll reqs s).2.Nodup := by
  intro reqs
  induction reqs with
  | nil => intro s hs _; exact ⟨hs, by simp [processAll], List.nodup_nil⟩
  | cons q rest ih =>
    intro s hs hreq
    obtain ⟨t, id⟩ := q
    have hq := hreq (t, id) (List.mem_cons_self _ _)
    have hrest : ∀ p ∈ rest, p.1 ≤ T ∧ T < p.1 + minute :=
      fun p hp => hreq p (List.mem_cons_of_mem _ hp)
    by_cases hl : keyLive s t (keyOf id) = true
    · have hr : trackUniqueRequest t id s = (false, s) := setNX_of_live hl
      obtain ⟨g1, g2, g3⟩ := ih s hs hrest
      simp only [processAll, hr]
      exact ⟨g1, g2, g3⟩
    · have hr : trackUniqueRequest t id s = (true, (keyOf id, t + minute) :: s) :=
        setNX_of_dead (Bool.eq_false_iff.mpr hl)
      have hs' : ∀ e ∈ (keyOf id, t + minute) :: s, T < e.2 ∧ keyMatches e.1 = true := by
        intro e he
        rcases List.mem_cons.mp he with rfl | he'
        · exact ⟨hq.2, keyMatches_keyOf id⟩
        · exact hs e he'
      obtain ⟨g1, g2, g3⟩ := ih ((keyOf id, t + minute) :: s) hs' hrest
      simp only [processAll, hr]
      refine ⟨g1, ?_, ?_⟩
      · rw [g2]
        simp only [if_true, List.length_cons]
        omega
      · exact List.nodup_cons.mpr
          ⟨accepted_not_mem (List.mem_cons_self _ _)
            (fun p hp => lt_of_le_of_lt (hrest p hp).1 hq.2), g3⟩

theorem keysMatching_of_good {s : Store} {T : Nat}
    (h : ∀ e ∈ s, T < e.2 ∧ keyMatches e.1 = true) :
    keysMatching s T = s.map Prod.fst := by
  unfold keysMatching
  congr 1
  apply List.filter_eq_self.mpr
  intro e he
  simp [(h e he).1, (h e he).2]

/-- Claim C3: starting from an empty store (cleared by the previous cycle,
or process start), run any batch of requests each made at most one TTL
before the cycle time `T`; the cycle reports on both sinks exactly the
number of distinct identifiers accepted (those whose `trackUniqueRequest`
returned true), and every key in the cycle's snapshot is absent from the
store immediately after the cycle completes. -/
theorem c3_cycle_counts_accepted (T : Nat) (reqs : List (Nat × Int))
    (H : ∀ p ∈ reqs, p.1 ≤ T ∧ T < p.1 + minute) :
    (logCycle false T ⟨(processAll reqs []).1, [], []⟩).logFile
        = [countMessage (processAll reqs []).2.dedup.length ++ "\n"] ∧
      (logCycle false T ⟨(processAll reqs []).1, [], []⟩).kafka
        = [countMessage (processAll reqs []).2.dedup.length] ∧
      ∀ k ∈ keysMatching (processAll reqs []).1 T,
        keyLive (logCycle false T ⟨(processAll reqs []).1, [], []⟩).store T k = false := by
  obtain ⟨hgood, hlen, hnodup⟩ := processAll_invariant T reqs []
    (fun e he => absurd he (List.not_mem_nil e)) H
  have hsnap := keysMatching_of_good hgood
  have hcount : (keysMatching (processAll reqs []).1 T).length
      = (processAll reqs []).2.dedup.length := by
    rw [hsnap, List.length_map, hlen, List.dedup_eq_self.mpr hnodup]
    simp
  refine ⟨?_, ?_, ?_⟩
  · show [] ++ [countMessage (keysMatching (processAll reqs []).1 T).length ++ "\n"] = _
    rw [hcount]
    rfl
  · show [] ++ [countMessage (keysMatching (processAll reqs []).1 T).length] = _
    rw [hcount]
    rfl
  · intro k hk
    exact keyLive_delKeys_of_mem hk

/-- Claim C3 witness: requests `(0, 1)`, `(0, 2)`, `(5, 1)` before a cycle
at time 10 — two distinct identifiers accepted, reported count 2, and both
snapshotted keys gone afterwards. -/
theorem c3_witness :
    (logCycle false 10 ⟨(processAll [(0, 1), (0, 2), (5, 1)] []).1, [], []⟩).logFile
      = [countMessage (processAll [(0, 1), (0, 2), (5, 1)] []).2.dedup.length ++ "\n"] :=
  (c3_cycle_counts_accepted 10 [(0, 1), (0, 2), (5, 1)] (by decide)).1

theorem digitsValAux_of_digits :
    ∀ (ds : List Char) (a : Nat), (∀ c ∈ ds, isDigitChar c) →
      digitsValAux a ds = some (ds.foldl (fun x c => x * 10 + (c.toNat - 48)) a) := by
  intro ds
  induction ds with
  | nil => intro a _; rfl
  | cons c cs ih =>
    intro a h
    have hdv : digitVal? c = some (c.toNat - 48) := by
      unfold digitVal?
      rw [if_pos (h c (List.mem_cons_self _ _))]
    simp only [digitsValAux, hdv, List.foldl_cons]
    exact ih _ (fun d hd => h d (List.mem_cons_of_mem _ hd))

theorem digitsValAux_some :
    ∀ (ds : List Char) (a v : Nat), digitsValAux a ds = some v →
      (∀ c ∈ ds, isDigitChar c) ∧ v = ds.foldl (fun x c => x * 10 + (c.toNat - 48)) a := by
  intro ds
  induction ds with
  | nil =>
    intro a v h
    refine ⟨fun c hc => absurd hc (List.not_mem_nil c), ?_⟩
    simpa [digitsValAux] using h.symm
  | cons c cs ih =>
    intro a v h
    unfold digitsValAux at h
    by_cases hc : '0' ≤ c ∧ c ≤ '9'
    · rw [show digitVal? c = some (c.toNat - 48) from by unfold digitVal?; rw [if_pos hc]] at h
      obtain ⟨h1, h2⟩ := ih _ _ h
      refine ⟨?_, by rw [List.foldl_cons]; exact h2⟩
      intro d hd
      rcases List.mem_cons.mp hd with rfl | hd'
      · exact hc
      · exact h1 d hd'
    · rw [show digitVal? c = none from by unfold digitVal?; rw [if_neg hc]] at h
      cases h

theorem parseID_data_nosign {s : String} {ds : List Char} (h : s.data = ds)
    (hne : ds ≠ []) (hdig : ∀ c ∈ ds, isDigitChar c) :
    parseID s = if natValue ds < 2 ^ 63 then some (natValue ds : Int) else none := by
  obtain ⟨c, cs, rfl⟩ : ∃ c cs, ds = c :: cs := by
    cases ds with
    | nil => exact absurd rfl hne
    | cons c cs => exact ⟨c, cs, rfl⟩
  have hc := hdig c (List.mem_cons_self _ _)
  have hcm : ¬(c = '-') := fun h' => absurd hc.1 (by rw [h']; decide)
  have hcp : ¬(c = '+') := fun h' => absurd hc.1 (by rw [h']; decide)
  unfold parseID
  rw [h]
  simp only [if_neg hcm, if_neg hcp, if_neg (List.cons_ne_nil c cs),
    digitsValAux_of_digits (c :: cs) 0 hdig]
  rfl

theorem parseID_data_plus {s : String} {ds : List Char} (h : s.data = '+' :: ds)
    (hne : ds ≠ []) (hdig : ∀ c ∈ ds, isDigitChar c) :
    parseID s = if natValue ds < 2 ^ 63 then some (natValue ds : Int) else none := by
  unfold parseID
  rw [h]
  simp only [if_neg (show ¬('+' = '-') by decide), if_pos rfl, if_true, if_neg hne,
    digitsValAux_of_digits ds 0 hdig]
  rfl

theorem parseID_data_neg {s : String} {ds : List Char} (h : s.data = '-' :: ds)
    (hne : ds ≠ []) (hdig : ∀ c ∈ ds, isDigitChar c) :
    parseID s = if natValue ds ≤ 2 ^ 63 then some (-(natValue ds : Int)) else none := by
  unfold parseID
  rw [h]
  simp only [if_pos rfl, if_true, if_neg hne, digitsValAux_of_digits ds 0 hdig]
  rfl

theorem spec_of_parseID {s : String} {m : Int} (h : parseID s = some m) :
    specIntString s m := by
  unfold parseID at h
  cases hd : s.data with
  | nil => rw [hd] at h; cases h
  | cons c cs =>
    rw [hd] at h
    by_cases hcm : c = '-'
    · simp only [if_pos hcm, if_true] at h
      by_cases hne : cs = []
      · rw [if_pos hne] at h; cases h
      · rw [if_neg hne] at h
        cases hdv : digitsValAux 0 cs with
        | none => rw [hdv] at h; cases h
        | some n =>
          simp only [hdv] at h
          obtain ⟨hdig, hval⟩ := digitsValAux_some cs 0 n hdv
          by_cases hrange : n ≤ 2 ^ 63
          · rw [if_pos hrange] at h
            have hm : -(n : Int) = m := Option.some.inj h
            refine ⟨cs, hne, hdig, Or.inr ⟨by rw [hd, hcm], ?_⟩⟩
            rw [← hm, hval]
            rfl
          · rw [if_neg hrange] at h; cases h
    · by_cases hcp : c = '+'
      · simp only [if_neg hcm, if_pos hcp, if_true] at h
        by_cases hne : cs = []
        · rw [if_pos hne] at h; cases h
        · rw [if_neg hne] at h
          cases hdv : digitsValAux 0 cs with
          | none => rw [hdv] at h; cases h
          | some n =>
            simp only [hdv, if_neg (Bool.false_ne_true)] at h
            obtain ⟨hdig, hval⟩ := digitsValAux_some cs 0 n hdv
            by_cases hrange : n < 2 ^ 63
            · rw [if_pos hrange] at h
              have hm : (n : Int) = m := Option.some.inj h
              refine ⟨cs, hne, hdig, Or.inl ⟨Or.inr (by rw [hd, hcp]), ?_⟩⟩
              rw [← hm, hval]
              rfl
            · rw [if_neg hrange] at h; cases h
      · simp only [if_neg hcm, if_neg hcp] at h
        rw [if_neg (List.cons_ne_nil c cs)] at h
        cases hdv : digitsValAux 0 (c :: cs) with
        | none => rw [hdv] at h; cases h
        | some n =>
          simp only [hdv, if_neg (Bool.false_ne_true)] at h
          obtain ⟨hdig, hval⟩ := digitsValAux_some (c :: cs) 0 n hdv
          by_cases hrange : n < 2 ^ 63
          · rw [if_pos hrange] at h
            have hm : (n : Int) = m := Option.some.inj h
            refine ⟨c :: cs, List.cons_ne_nil c cs, hdig, Or.inl ⟨Or.inl hd, ?_⟩⟩
            rw [← hm, hval]
            rfl
          · rw [if_neg hrange] at h; cases h

/-- Claim C8 counterexample: the string `"9223372036854775808"` (the value
2^63) represents a base-10 integer in the sense of the spec, yet `parseID`
(Go's `strconv.Atoi`) fails on it, because the value exceeds the host's
64-bit signed integer range. -/
theorem c8_counterexample :
    specIntString "9223372036854775808" (9223372036854775808 : Int) ∧
      parseID "9223372036854775808" = none :=
  ⟨⟨"9223372036854775808".data, by decide, by decide, Or.inl ⟨Or.inl rfl, by decide⟩⟩,
    by decide⟩

/-- Claim C8 amended: for every string representing a base-10 integer whose
value fits the host machine's 64-bit signed range, the validator succeeds
and returns exactly that integer; a string representing an integer outside
that range fails, and every string not representing a base-10 integer at
all (the empty string included) fails. -/
theorem c8_validator_range :
    (∀ (s : String) (n : Int), specIntString s n →
      ((-(2 ^ 63) ≤ n ∧ n < 2 ^ 63) → parseID s = some n) ∧
      ((n < -(2 ^ 63) ∨ 2 ^ 63 ≤ n) → parseID s = none)) ∧
    (∀ s : String, (∀ n : Int, ¬ specIntString s n) → parseID s = none) := by
  have hval63 : (2 : Nat) ^ 63 = 9223372036854775808 := by norm_num
  have hint63 : (2 : Int) ^ 63 = 9223372036854775808 := by norm_num
  constructor
  · rintro s n ⟨ds, hne, hdig, hcase⟩
    rcases hcase with ⟨hdata, hn⟩ | ⟨hdata, hn⟩
    · have hpid : parseID s
          = if natValue ds < 2 ^ 63 then some (natValue ds : Int) else none := by
        rcases hdata with h1 | h1
        · exact parseID_data_nosign h1 hne hdig
        · exact parseID_data_plus h1 hne hdig
      constructor
      · rintro ⟨_, hlt⟩
        have hv : natValue ds < 2 ^ 63 := by
          rw [hn, hint63] at hlt
          rw [hval63]
          omega
        rw [hpid, if_pos hv, hn]
      · rintro (hlt | hge)
        · exfalso
          rw [hn, hint63] at hlt
          omega
        · have hv : ¬(natValue ds < 2 ^ 63) := by
            rw [hn, hint63] at hge
            rw [hval63]
            omega
          rw [hpid, if_neg hv]
    · have hpid := parseID_data_neg hdata hne hdig
      constructor
      · rintro ⟨hge, _⟩
        have hv : natValue ds ≤ 2 ^ 63 := by
          rw [hn, hint63] at hge
          rw [hval63]
          omega
        rw [hpid, if_pos hv, hn]
      · rintro (hlt | hge)
        · have hv : ¬(natValue ds ≤ 2 ^ 63) := by
            rw [hn, hint63] at hlt
            rw [hval63]
            omega
          rw [hpid, if_neg hv]
        · exfalso
          rw [hn, hint63] at hge
          omega
  · intro s hnone
    cases hps : parseID s with
    | none => rfl
    | some m => exact absurd (spec_of_parseID hps) (hnone m)

/-- Claim C8 witness: `"42"` is accepted with value 42 through the in-range
branch of the amended theorem. -/
theorem c8_witness : parseID "42" = some 42 :=
  (c8_validator_range.1 "42" 42
    ⟨['4', '2'], by decide, by decide, Or.inl ⟨Or.inl (by decide), by decide⟩⟩).1
    (by decide)
